import Mathlib

/-!
Verification of tricot.py, a monkey-patch for the openai chat-completion API
that logs every call and optionally rewrites the outgoing message list.

The embedding below follows src/tricot.py line by line:

* Chat messages are Python mappings; we model a field value as either a string
  or an arbitrary non-JSON-serializable object, so that json.dumps failure is
  observable.  A message is an association list of field name and value.
* The caller passes its message list by reference.  To state the deepcopy and
  non-mutation properties we use an explicit heap: a list of cells, each cell
  holding one message-list object as a deep value.  deepcopy allocates a fresh
  cell with the same value; an in-place mutation rewrites one cell.
* The editing hook edit_call is a Python function: it may mutate the list
  object it receives in place (field mutate) and it returns a value or raises
  (field ret).
* create_and_log additionally produces the ordered trace of its observable
  actions (hook invocation, reading time.time(), invoking the underlying
  call, emitting a record on the TRICOT logging channel), so that ordering
  and exactly-one-record properties can be stated.
* patch_openai stores a new wrapper in the single chat-completion slot of the
  openai module.  The wrapper closes over the module-level binding
  original_chat_completion_create, captured once at import time, which we pass
  as an explicit parameter.
* new_log_file acts on the state of the Python logging library restricted to
  what the program touches: the TRICOT logger (its own handler list, its
  level, its propagate flag) and its only ancestor, the root logger.  Python
  semantics modelled faithfully: Logger.hasHandlers walks up the ancestor
  chain while propagate is set; Logger.removeHandler removes the handler from
  the list but does not close it; logging.FileHandler opens the file at
  construction time and raises on failure.
-/

namespace Tricot

/-- A Python value stored in a message field: a JSON-serializable string, or
an opaque object (identified by a tag) that json.dumps cannot serialize. -/
inductive PyVal where
  | str (s : String)
  | obj (tag : Nat)
deriving DecidableEq, Repr

/-- A chat message: a Python mapping from field names to values (at least
role and content in practice, but the code never checks the shape). -/
abbrev Msg := List (String × PyVal)

/-- Extra keyword arguments passed through to the underlying call verbatim. -/
abbrev Kwargs := List (String × PyVal)

/-- A Python exception, as observed by the caller of the wrapped call. -/
inductive PyErr where
  | indexError
  | typeError
  | osError
  | raised (tag : Nat)
deriving DecidableEq, Repr

/-- One element of the choices list of a chat-completion response. -/
structure Choice where
  message : Msg
  extra : List (String × PyVal)
deriving DecidableEq, Repr

/-- A chat-completion response: the choices list plus the rest of the payload,
which tricot never inspects and must return untouched. -/
structure Response where
  choices : List Choice
  payload : List (String × PyVal)
deriving DecidableEq, Repr

/-- The underlying chat-completion call (the import-time binding
original_chat_completion_create): takes the forwarded messages and the
pass-through kwargs, returns a response or raises. -/
abbrev UnderlyingFn := List Msg → Kwargs → Except PyErr Response

/-- The record serialized by json.dumps and emitted through the logger. -/
structure LogRecord where
  timestamp : Int
  messages : List Msg
deriving DecidableEq, Repr

/-- json.dumps can serialize a string but not an opaque object. -/
def PyVal.serializable : PyVal → Bool
  | PyVal.str _ => true
  | PyVal.obj _ => false

/-- json.dumps succeeds on a message iff every field value is serializable. -/
def serializableMsg (m : Msg) : Bool :=
  m.all fun kv => kv.2.serializable

/-- json.dumps succeeds on the whole record iff every message is
serializable (the timestamp, a number, always is). -/
def serializableRecord (r : LogRecord) : Bool :=
  r.messages.all serializableMsg

/-- The heap of message-list objects: cell index is object identity, the cell
content is the deep value of the list. -/
structure Heap where
  cells : List (List Msg)
deriving DecidableEq, Repr

/-- Dereference an address (reading a dangling address gives the empty list;
the theorems only use valid addresses). -/
def Heap.get (h : Heap) (a : Nat) : List Msg :=
  h.cells.getD a []

/-- In-place mutation of the object at an address. -/
def Heap.set (h : Heap) (a : Nat) (v : List Msg) : Heap :=
  Heap.mk (h.cells.set a v)

/-- Allocate a fresh object holding the given value; returns the new heap and
the fresh address. -/
def Heap.alloc (h : Heap) (v : List Msg) : Heap × Nat :=
  (Heap.mk (h.cells ++ [v]), h.cells.length)

/-- copy.deepcopy(messages): allocate a fresh, independent object with the
same deep value as the object at the given address. -/
def deepcopy (h : Heap) (a : Nat) : Heap × Nat :=
  h.alloc (h.get a)

/-- The edit_call hook, an arbitrary Python function on a message-list
object: mutate describes what it does in place to the object it is handed,
ret describes the value it returns (or the exception it raises), both as
functions of the value the object had when the hook was invoked. -/
structure Hook where
  mutate : List Msg → List Msg
  ret : List Msg → Except PyErr (List Msg)

/-- The name of the fixed logging channel. -/
def tricotChannel : String := "TRICOT"

/-- Observable actions of one wrapped call, in execution order. -/
inductive Event where
  | hookInvoked (arg : List Msg)
  | timeRead (t : Int)
  | underlyingCalled (msgs : List Msg)
  | logged (channel : String) (record : LogRecord)
deriving DecidableEq, Repr

/-- Outcome of one wrapped call: the final heap, the ordered trace of
observable actions, and the returned value or the propagated exception. -/
structure CallResult where
  heap : Heap
  events : List Event
  result : Except PyErr Response
deriving Repr

/-- Lines 68 to 82 of tricot.py, after the optional hook step: read
time.time(), forward messages and kwargs to the underlying call, extract the
top choice message (an empty choices list raises IndexError), serialize and
emit the record (a non-serializable record raises TypeError from json.dumps),
return the response. -/
def forwardAndLog (underlying : UnderlyingFn) (kwargs : Kwargs) (now : Int)
    (heap : Heap) (msgs : List Msg) (evs : List Event) : CallResult :=
  match underlying msgs kwargs with
  | Except.error e =>
    { heap := heap
      events := evs ++ [Event.timeRead now, Event.underlyingCalled msgs]
      result := Except.error e }
  | Except.ok response =>
    match response.choices with
    | [] =>
      { heap := heap
        events := evs ++ [Event.timeRead now, Event.underlyingCalled msgs]
        result := Except.error PyErr.indexError }
    | c :: _ =>
      if serializableRecord { timestamp := now, messages := msgs ++ [c.message] } then
        { heap := heap
          events := evs ++ [Event.timeRead now, Event.underlyingCalled msgs,
            Event.logged tricotChannel { timestamp := now, messages := msgs ++ [c.message] }]
          result := Except.ok response }
      else
        { heap := heap
          events := evs ++ [Event.timeRead now, Event.underlyingCalled msgs]
          result := Except.error PyErr.typeError }

/-- create_and_log of tricot.py.  The caller passes its message-list object by
address.  If a hook is bound: deepcopy the object, invoke the hook on the
copy (its in-place mutations hit only the copy cell; if it raises, the
exception propagates and nothing is logged), and use its return value as the
messages sent onward.  Then proceed as in forwardAndLog. -/
def create_and_log (heap : Heap) (msgsAddr : Nat) (edit_call : Option Hook)
    (kwargs : Kwargs) (underlying : UnderlyingFn) (now : Int) : CallResult :=
  match edit_call with
  | none => forwardAndLog underlying kwargs now heap (heap.get msgsAddr) []
  | some hook =>
    let orig := heap.get msgsAddr
    let copied := deepcopy heap msgsAddr
    let heap2 := copied.1.set copied.2 (hook.mutate orig)
    match hook.ret orig with
    | Except.error e =>
      { heap := heap2, events := [Event.hookInvoked orig], result := Except.error e }
    | Except.ok edited =>
      forwardAndLog underlying kwargs now heap2 edited [Event.hookInvoked orig]

/-- The messages actually sent onward: the hook return value when a hook is
bound (or the exception it raises), otherwise the original messages.  Used
only to state theorems. -/
def editedMessages (heap : Heap) (msgsAddr : Nat) (edit_call : Option Hook) :
    Except PyErr (List Msg) :=
  match edit_call with
  | none => Except.ok (heap.get msgsAddr)
  | some hook => hook.ret (heap.get msgsAddr)

/-- The records emitted on the TRICOT channel during one call, in order. -/
def loggedRecords (evs : List Event) : List LogRecord :=
  evs.filterMap fun e =>
    match e with
    | Event.logged ch r => if ch = tricotChannel then some r else none
    | _ => none

/-- The version shim of tricot.py: the openai library is pre-1.0.0 iff the
first dotted component of its version string is the string 0. -/
def OPENAI_IS_PRE_1_0_0 (version : String) : Bool :=
  (version.splitOn ".").headD "" == "0"

/-- The type of the chat-completion slot of the openai module after the
shim has selected the call-site shape. -/
abbrev CreateFn := Heap → Nat → Kwargs → Int → CallResult

/-- The openai module as tricot sees it: the single chat-completion slot the
shim selected, plus the rest of the module, untouched by patching. -/
structure OpenAIState where
  chatCompletionCreate : CreateFn
  otherAttrs : List (String × PyVal)

/-- patch_openai of tricot.py: store functools partial application of
create_and_log to edit_call in the chat-completion slot.  The stored wrapper
calls original_chat_completion_create, the binding captured at import time
(passed here explicitly), never the previously stored wrapper. -/
def patch_openai (original_chat_completion_create : UnderlyingFn)
    (edit_call : Option Hook) (st : OpenAIState) : OpenAIState :=
  { st with
    chatCompletionCreate := fun heap msgsAddr kwargs now =>
      create_and_log heap msgsAddr edit_call kwargs original_chat_completion_create now }

/-- A logging FileHandler: the path it writes to, the lines written so far,
and whether close() has been called on it. -/
structure Handler where
  path : String
  written : List String
  closed : Bool
deriving DecidableEq, Repr

/-- Sentinel for reading a dangling handler index (never hit by the
theorems; closed is set so the sentinel cannot fake an open handler). -/
def noHandler : Handler :=
  { path := "", written := [], closed := true }

/-- The state of the Python logging library restricted to what tricot
touches: a store of all FileHandler objects ever created (index is object
identity), the TRICOT logger (its own handler list, its level, its propagate
flag, default true import) and the root logger (its handler list and its
level, default WARNING equal to 30). -/
structure LoggingState where
  store : List Handler
  tricotHandlers : List Nat
  tricotLevel : Nat
  tricotPropagate : Bool
  rootHandlers : List Nat
  rootLevel : Nat
deriving DecidableEq, Repr

/-- logging.INFO. -/
def INFO : Nat := 20

/-- Logger.hasHandlers of the TRICOT logger: true iff this logger has a
handler of its own, or propagate is set and an ancestor (the root logger)
has one. -/
def hasHandlers (st : LoggingState) : Bool :=
  !st.tricotHandlers.isEmpty || (st.tricotPropagate && !st.rootHandlers.isEmpty)

/-- The loop of new_log_file: while logger.hasHandlers() do
logger.removeHandler(logger.handlers[0]).  The propagate flag and the root
handler list never change inside the loop, so they enter as the constant
flag anc.  While the own list is nonempty, handlers[0] is its head and
removeHandler drops it.  Once the own list is empty, if anc still makes
hasHandlers true, evaluating logger.handlers[0] raises IndexError.  Returns
the final own handler list and the exception, if one was raised. -/
def drainHandlers : List Nat → Bool → List Nat × Option PyErr
  | [], anc => if anc then ([], some PyErr.indexError) else ([], none)
  | _ :: rest, anc => drainHandlers rest anc

/-- logging.FileHandler(path): opens the file eagerly; raises OSError when
the path is not writable, otherwise yields a fresh open handler. -/
def fileHandler (writable : String → Bool) (path : String) : Except PyErr Handler :=
  if writable path then
    Except.ok { path := path, written := [], closed := false }
  else
    Except.error PyErr.osError

/-- The default log path logs/{timestamp}.log, built from
time.strftime applied to the current wall-clock time. -/
def defaultLogPath (strftimeNow : String) : String :=
  "logs/" ++ strftimeNow ++ ".log"

/-- The first statement of new_log_file: if path is None, use the default
path derived from the clock, else the given path. -/
def resolvedPath (strftimeNow : String) (path : Option String) : String :=
  match path with
  | none => defaultLogPath strftimeNow
  | some q => q

/-- new_log_file of tricot.py: resolve the path (default from the clock),
set the TRICOT logger level to INFO, run the handler-removal loop (which may
raise IndexError), then construct and attach a FileHandler (which may raise
OSError).  Returns the resulting logging state and the exception, if any
step raised: Python leaves the partial state changes in place. -/
def new_log_file (writable : String → Bool) (strftimeNow : String)
    (path : Option String) (st : LoggingState) : LoggingState × Option PyErr :=
  let p := resolvedPath strftimeNow path
  let st1 := { st with tricotLevel := INFO }
  match drainHandlers st1.tricotHandlers (st1.tricotPropagate && !st1.rootHandlers.isEmpty) with
  | (own, some e) => ({ st1 with tricotHandlers := own }, some e)
  | (own, none) =>
    match fileHandler writable p with
    | Except.error e => ({ st1 with tricotHandlers := own }, some e)
    | Except.ok h =>
      ({ st1 with
          store := st1.store ++ [h],
          tricotHandlers := own ++ [st1.store.length] }, none)

/-- Handler.emit: append one line to the file behind the handler. -/
def appendLine (h : Handler) (line : String) : Handler :=
  { path := h.path, written := h.written ++ [line], closed := h.closed }

/-- Write one line through each handler in the list, in order. -/
def writeTo (store : List Handler) (idxs : List Nat) (line : String) : List Handler :=
  match idxs with
  | [] => store
  | i :: rest => writeTo (store.set i (appendLine (store.getD i noHandler) line)) rest line

/-- Logger.getEffectiveLevel of the TRICOT logger: its own level unless it is
NOTSET equal to 0, in which case the root level applies. -/
def effectiveLevel (st : LoggingState) : Nat :=
  if st.tricotLevel ≠ 0 then st.tricotLevel else st.rootLevel

/-- logger.info(line) on the TRICOT logger: if INFO passes the effective
level, the record is handled by the own handlers and, when propagate is set,
by the root handlers (FileHandler objects keep the default NOTSET level, so
the per-handler level check always passes). -/
def loggerInfo (st : LoggingState) (line : String) : LoggingState :=
  if INFO ≥ effectiveLevel st then
    let s1 := writeTo st.store st.tricotHandlers line
    let s2 := if st.tricotPropagate then writeTo s1 st.rootHandlers line else s1
    { st with store := s2 }
  else st

/-! Concrete fixtures used by witnesses and counterexamples. -/

/-- A plain user message. -/
def msgUser : Msg := [("role", PyVal.str "user"), ("content", PyVal.str "hi")]

/-- A plain assistant reply. -/
def msgReply : Msg := [("role", PyVal.str "assistant"), ("content", PyVal.str "hello")]

/-- A system message an editing hook might add. -/
def msgSystem : Msg := [("role", PyVal.str "system"), ("content", PyVal.str "be nice")]

/-- A message whose content is a non-JSON-serializable object. -/
def msgBad : Msg := [("role", PyVal.str "user"), ("content", PyVal.obj 0)]

/-- The single choice of respSample. -/
def choiceSample : Choice :=
  { message := msgReply, extra := [("finish_reason", PyVal.str "stop")] }

/-- A well-formed response with one choice and some untouched payload. -/
def respSample : Response :=
  { choices := [choiceSample],
    payload := [("id", PyVal.str "chatcmpl-1"), ("model", PyVal.str "gpt-4")] }

/-- A response with an empty choices list. -/
def respNoChoices : Response :=
  { choices := [], payload := [("id", PyVal.str "chatcmpl-2")] }

/-- An underlying call that always succeeds with respSample. -/
def okUnderlying : UnderlyingFn := fun _ _ => Except.ok respSample

/-- Sample kwargs passed through verbatim. -/
def kwargsSample : Kwargs := [("model", PyVal.str "gpt-4"), ("temperature", PyVal.str "0")]

/-- A heap whose only object, at address 0, is the singleton list holding
msgUser. -/
def heapSample : Heap := { cells := [[msgUser]] }

/-- A heap whose only object, at address 0, is the singleton list holding
the non-serializable message msgBad. -/
def heapBad : Heap := { cells := [[msgBad]] }

/-- A destructive editing hook: in place it wipes the list it is handed, and
it returns the list with msgSystem prepended. -/
def hookSample : Hook :=
  { mutate := fun _ => [], ret := fun l => Except.ok (msgSystem :: l) }

/-- The logging state at import: no handlers anywhere, TRICOT level NOTSET,
propagate set, root level WARNING. -/
def loggingInit : LoggingState :=
  { store := [], tricotHandlers := [], tricotLevel := 0,
    tricotPropagate := true, rootHandlers := [], rootLevel := 30 }

/-- A logging state where the TRICOT logger has no handler of its own but
the root logger has one. -/
def loggingWithRootHandler : LoggingState :=
  { store := [{ path := "root.log", written := [], closed := false }],
    tricotHandlers := [], tricotLevel := 0,
    tricotPropagate := true, rootHandlers := [0], rootLevel := 30 }

/-- A filesystem on which every path is writable. -/
def allWritable : String → Bool := fun _ => true

/-- The logging state after one successful open_log of logs/a.log starting
from loggingInit. -/
def loggingAfterOpenA : LoggingState :=
  { store := [{ path := "logs/a.log", written := [], closed := false }],
    tricotHandlers := [0], tricotLevel := INFO,
    tricotPropagate := true, rootHandlers := [], rootLevel := 30 }

/-- A filesystem on which no path is writable. -/
def nothingWritable : String → Bool := fun _ => false

/-! Helper lemmas. -/

/-- The heap is threaded through forwardAndLog unchanged. -/
theorem forwardAndLog_heap (u : UnderlyingFn) (k : Kwargs) (n : Int)
    (h : Heap) (m : List Msg) (evs : List Event) :
    (forwardAndLog u k n h m evs).heap = h := by
  unfold forwardAndLog
  split
  · rfl
  · split
    · rfl
    · split <;> rfl

/-- forwardAndLog only appends to the event trace it is given. -/
theorem forwardAndLog_events_prefix (u : UnderlyingFn) (k : Kwargs) (n : Int)
    (h : Heap) (m : List Msg) (evs : List Event) :
    ∃ tail, (forwardAndLog u k n h m evs).events = evs ++ tail := by
  unfold forwardAndLog
  split
  · exact ⟨_, rfl⟩
  · split
    · exact ⟨_, rfl⟩
    · split
      · exact ⟨_, rfl⟩
      · exact ⟨_, rfl⟩

/-- loggedRecords distributes over trace concatenation. -/
theorem loggedRecords_append (a b : List Event) :
    loggedRecords (a ++ b) = loggedRecords a ++ loggedRecords b := by
  unfold loggedRecords
  exact List.filterMap_append a b _

/-- The handler-removal loop always empties the own handler list, and raises
IndexError exactly when an ancestor handler keeps hasHandlers true. -/
theorem drainHandlers_eq (l : List Nat) (anc : Bool) :
    drainHandlers l anc = ([], if anc then some PyErr.indexError else none) := by
  induction l with
  | nil => cases anc <;> rfl
  | cons i rest ih => exact ih

/-- Reading another address is unaffected by an in-place mutation. -/
theorem Heap.get_set_ne (h : Heap) (a b : Nat) (v : List Msg) (ne : a ≠ b) :
    (h.set a v).get b = h.get b := by
  unfold Heap.get Heap.set
  simp [List.getD_eq_getElem?_getD, List.getElem?_set_ne ne]

/-- Reading a valid address is unaffected by an allocation. -/
theorem Heap.get_alloc_old (h : Heap) (v : List Msg) (b : Nat)
    (hb : b < h.cells.length) :
    (h.alloc v).1.get b = h.get b := by
  unfold Heap.get Heap.alloc
  simp [List.getD_eq_getElem?_getD, List.getElem?_append_left hb]

/-- Setting one list position leaves reads of any other position alone. -/
theorem getD_set_ne {α : Type} (l : List α) (i j : Nat) (x d : α) (hne : i ≠ j) :
    (l.set i x).getD j d = l.getD j d := by
  simp [List.getD_eq_getElem?_getD, List.getElem?_set_ne hne]

/-- Reading a position just set, within bounds, yields the new element. -/
theorem getD_set_self {α : Type} (l : List α) (i : Nat) (x d : α) (hi : i < l.length) :
    (l.set i x).getD i d = x := by
  simp [List.getD_eq_getElem?_getD, List.getElem?_set_eq_of_lt x hi]

/-- Reading a position below the length of the left part of a concatenation
stays in the left part. -/
theorem getD_append_lt {α : Type} (l m : List α) (j : Nat) (d : α) (hj : j < l.length) :
    ((l ++ m).getD j d) = l.getD j d := by
  simp [List.getD_eq_getElem?_getD, List.getElem?_append_left hj]

/-- Reading just past a list extended by one element yields that element. -/
theorem getD_append_length {α : Type} (l : List α) (x d : α) :
    (l ++ [x]).getD l.length d = x := by
  rw [List.getD_eq_getElem?_getD, List.getElem?_append_right (Nat.le_refl _)]
  simp

/-- forwardAndLog adds exactly one record to the trace when it returns
normally and none when it raises. -/
theorem forwardAndLog_count (u : UnderlyingFn) (k : Kwargs) (n : Int)
    (h : Heap) (m : List Msg) (evs : List Event) :
    (∀ resp, (forwardAndLog u k n h m evs).result = Except.ok resp →
        (loggedRecords (forwardAndLog u k n h m evs).events).length
          = (loggedRecords evs).length + 1)
  ∧ (∀ e, (forwardAndLog u k n h m evs).result = Except.error e →
        (loggedRecords (forwardAndLog u k n h m evs).events).length
          = (loggedRecords evs).length) := by
  unfold forwardAndLog
  split
  · constructor
    · intro resp hres; exact absurd hres (by simp)
    · intro e hres; simp [loggedRecords_append, loggedRecords]
  · split
    · constructor
      · intro resp hres; exact absurd hres (by simp)
      · intro e hres; simp [loggedRecords_append, loggedRecords]
    · split
      · constructor
        · intro resp hres; simp [loggedRecords_append, loggedRecords]
        · intro e hres; exact absurd hres (by simp)
      · constructor
        · intro resp hres; exact absurd hres (by simp)
        · intro e hres; simp [loggedRecords_append, loggedRecords]

/-- An event already in the trace is still in it after forwardAndLog. -/
theorem forwardAndLog_mem_events (u : UnderlyingFn) (k : Kwargs) (n : Int)
    (h : Heap) (m : List Msg) (evs : List Event) (e : Event) (he : e ∈ evs) :
    e ∈ (forwardAndLog u k n h m evs).events := by
  obtain ⟨tail, htail⟩ := forwardAndLog_events_prefix u k n h m evs
  rw [htail]
  exact List.mem_append_left _ he

/-! Claim theorems. -/

/-- C1: for every call through the installed wrapper in which the hook (if
any) succeeds, the underlying chat-completion call succeeds, and the log
record serializes (the response has a top choice and json.dumps does not
raise), the wrapper returns to its caller exactly the response object
produced by the underlying call, for any installed editing hook including
none. -/
theorem create_and_log_transparent
    (heap : Heap) (msgsAddr : Nat) (edit_call : Option Hook) (kwargs : Kwargs)
    (underlying : UnderlyingFn) (now : Int) (m : List Msg) (resp : Response)
    (c : Choice) (cs : List Choice)
    (hEdit : editedMessages heap msgsAddr edit_call = Except.ok m)
    (hCall : underlying m kwargs = Except.ok resp)
    (hChoices : resp.choices = c :: cs)
    (hSer : serializableRecord { timestamp := now, messages := m ++ [c.message] } = true) :
    (create_and_log heap msgsAddr edit_call kwargs underlying now).result = Except.ok resp := by
  cases edit_call with
  | none =>
    simp only [editedMessages, Except.ok.injEq] at hEdit
    subst hEdit
    simp [create_and_log, forwardAndLog, hCall, hChoices, hSer]
  | some hook =>
    simp only [editedMessages] at hEdit
    simp [create_and_log, forwardAndLog, hEdit, hCall, hChoices, hSer]

/-- Witness for C1 at concrete inputs: no hook, one user message, a
successful underlying call; the wrapper returns that very response. -/
theorem create_and_log_transparent_witness :
    (create_and_log heapSample 0 none kwargsSample okUnderlying 5).result
      = Except.ok respSample :=
  create_and_log_transparent heapSample 0 none kwargsSample okUnderlying 5
    [msgUser] respSample choiceSample [] rfl rfl rfl rfl

/-- C3: for every successful intercepted call, the messages field of the
emitted record is exactly the forwarded message list (the hook output when a
hook is bound, otherwise the original input messages) with exactly one
message appended: the message of the top choice of the response, as the same
mapping shape as an input message. -/
theorem create_and_log_trace_composition
    (heap : Heap) (msgsAddr : Nat) (edit_call : Option Hook) (kwargs : Kwargs)
    (underlying : UnderlyingFn) (now : Int) (m : List Msg) (resp : Response)
    (c : Choice) (cs : List Choice)
    (hEdit : editedMessages heap msgsAddr edit_call = Except.ok m)
    (hCall : underlying m kwargs = Except.ok resp)
    (hChoices : resp.choices = c :: cs)
    (hSer : serializableRecord { timestamp := now, messages := m ++ [c.message] } = true) :
    loggedRecords (create_and_log heap msgsAddr edit_call kwargs underlying now).events
      = [{ timestamp := now, messages := m ++ [c.message] }] := by
  cases edit_call with
  | none =>
    simp only [editedMessages, Except.ok.injEq] at hEdit
    subst hEdit
    simp [create_and_log, forwardAndLog, hCall, hChoices, hSer, loggedRecords]
  | some hook =>
    simp only [editedMessages] at hEdit
    simp [create_and_log, forwardAndLog, hEdit, hCall, hChoices, hSer, loggedRecords]

/-- Witness for C3 at concrete inputs: a hook that prepends a system
message; the logged trace is the edited list plus the assistant reply. -/
theorem create_and_log_trace_composition_witness :
    loggedRecords (create_and_log heapSample 0 (some hookSample) kwargsSample
        okUnderlying 5).events
      = [{ timestamp := 5, messages := [msgSystem, msgUser] ++ [msgReply] }] :=
  create_and_log_trace_composition heapSample 0 (some hookSample) kwargsSample
    okUnderlying 5 [msgSystem, msgUser] respSample choiceSample [] rfl rfl rfl rfl

/-- C8: a response with an empty choices list is a hard failure: the wrapped
call raises IndexError to its caller and emits no record. -/
theorem create_and_log_zero_choices
    (heap : Heap) (msgsAddr : Nat) (edit_call : Option Hook) (kwargs : Kwargs)
    (underlying : UnderlyingFn) (now : Int) (m : List Msg) (resp : Response)
    (hEdit : editedMessages heap msgsAddr edit_call = Except.ok m)
    (hCall : underlying m kwargs = Except.ok resp)
    (hZero : resp.choices = []) :
    (create_and_log heap msgsAddr edit_call kwargs underlying now).result
        = Except.error PyErr.indexError
      ∧ loggedRecords (create_and_log heap msgsAddr edit_call kwargs underlying now).events
        = [] := by
  cases edit_call with
  | none =>
    simp only [editedMessages, Except.ok.injEq] at hEdit
    subst hEdit
    constructor <;> simp [create_and_log, forwardAndLog, hCall, hZero, loggedRecords]
  | some hook =>
    simp only [editedMessages] at hEdit
    constructor <;> simp [create_and_log, forwardAndLog, hEdit, hCall, hZero, loggedRecords]

/-- Witness for C8 at concrete inputs: the underlying call succeeds with a
zero-choice response; IndexError propagates and nothing is logged. -/
theorem create_and_log_zero_choices_witness :
    (create_and_log heapSample 0 none kwargsSample
          (fun _ _ => Except.ok respNoChoices) 5).result
        = Except.error PyErr.indexError
      ∧ loggedRecords (create_and_log heapSample 0 none kwargsSample
          (fun _ _ => Except.ok respNoChoices) 5).events
        = [] :=
  create_and_log_zero_choices heapSample 0 none kwargsSample
    (fun _ _ => Except.ok respNoChoices) 5 [msgUser] respNoChoices rfl rfl rfl

/-- C9: on every successful intercepted call the trace ends with the time
read, then the underlying call on the forwarded messages, then the emitted
record; the timestamp field of that record is exactly the value obtained at
the time read, which happens before the messages are forwarded. -/
theorem create_and_log_timestamp_before_forward
    (heap : Heap) (msgsAddr : Nat) (edit_call : Option Hook) (kwargs : Kwargs)
    (underlying : UnderlyingFn) (now : Int) (m : List Msg) (resp : Response)
    (c : Choice) (cs : List Choice)
    (hEdit : editedMessages heap msgsAddr edit_call = Except.ok m)
    (hCall : underlying m kwargs = Except.ok resp)
    (hChoices : resp.choices = c :: cs)
    (hSer : serializableRecord { timestamp := now, messages := m ++ [c.message] } = true) :
    ∃ pre, (create_and_log heap msgsAddr edit_call kwargs underlying now).events
      = pre ++ [Event.timeRead now, Event.underlyingCalled m,
          Event.logged tricotChannel { timestamp := now, messages := m ++ [c.message] }] := by
  cases edit_call with
  | none =>
    simp only [editedMessages, Except.ok.injEq] at hEdit
    subst hEdit
    refine ⟨[], ?_⟩
    simp [create_and_log, forwardAndLog, hCall, hChoices, hSer]
  | some hook =>
    simp only [editedMessages] at hEdit
    refine ⟨[Event.hookInvoked (heap.get msgsAddr)], ?_⟩
    simp [create_and_log, forwardAndLog, hEdit, hCall, hChoices, hSer]

/-- Witness for C9 at concrete inputs. -/
theorem create_and_log_timestamp_before_forward_witness :
    ∃ pre, (create_and_log heapSample 0 none kwargsSample okUnderlying 5).events
      = pre ++ [Event.timeRead 5, Event.underlyingCalled [msgUser],
          Event.logged tricotChannel
            { timestamp := 5, messages := [msgUser] ++ [msgReply] }] :=
  create_and_log_timestamp_before_forward heapSample 0 none kwargsSample
    okUnderlying 5 [msgUser] respSample choiceSample [] rfl rfl rfl rfl

/-- Counterexample to C2 as stated: the underlying call succeeds, yet zero
records are emitted, because the input message content is an object that
json.dumps cannot serialize; the wrapped call raises TypeError instead of
emitting the record. -/
theorem create_and_log_serialization_loses_record :
    okUnderlying [msgBad] kwargsSample = Except.ok respSample
  ∧ (create_and_log heapBad 0 none kwargsSample okUnderlying 5).result
      = Except.error PyErr.typeError
  ∧ (loggedRecords (create_and_log heapBad 0 none kwargsSample okUnderlying 5).events).length
      = 0 :=
  ⟨rfl, rfl, rfl⟩

/-- C2 amended: for every intercepted call, exactly one record is emitted on
the named channel when the wrapped call returns normally, and zero records
are emitted when it raises, in particular when the editing hook raises or
the underlying call fails, in which cases the exception propagates
unmodified to the caller. -/
theorem create_and_log_record_count
    (heap : Heap) (msgsAddr : Nat) (edit_call : Option Hook) (kwargs : Kwargs)
    (underlying : UnderlyingFn) (now : Int) :
    (∀ resp, (create_and_log heap msgsAddr edit_call kwargs underlying now).result
          = Except.ok resp →
        (loggedRecords (create_and_log heap msgsAddr edit_call kwargs underlying now).events).length
          = 1)
  ∧ (∀ e, (create_and_log heap msgsAddr edit_call kwargs underlying now).result
          = Except.error e →
        (loggedRecords (create_and_log heap msgsAddr edit_call kwargs underlying now).events).length
          = 0)
  ∧ (∀ hook e, edit_call = some hook →
        hook.ret (heap.get msgsAddr) = Except.error e →
        (create_and_log heap msgsAddr edit_call kwargs underlying now).result
          = Except.error e)
  ∧ (∀ m e, editedMessages heap msgsAddr edit_call = Except.ok m →
        underlying m kwargs = Except.error e →
        (create_and_log heap msgsAddr edit_call kwargs underlying now).result
          = Except.error e) := by
  refine ⟨?_, ?_, ?_, ?_⟩
  · intro resp hres
    cases edit_call with
    | none =>
      simp only [create_and_log] at hres ⊢
      simpa [loggedRecords] using (forwardAndLog_count underlying kwargs now heap
        (heap.get msgsAddr) []).1 resp hres
    | some hook =>
      rcases hr : hook.ret (heap.get msgsAddr) with e0 | edited
      · simp [create_and_log, hr] at hres
      · simp only [create_and_log, hr] at hres ⊢
        simpa [loggedRecords] using (forwardAndLog_count underlying kwargs now _
          edited [Event.hookInvoked (heap.get msgsAddr)]).1 resp hres
  · intro e hres
    cases edit_call with
    | none =>
      simp only [create_and_log] at hres ⊢
      simpa [loggedRecords] using (forwardAndLog_count underlying kwargs now heap
        (heap.get msgsAddr) []).2 e hres
    | some hook =>
      rcases hr : hook.ret (heap.get msgsAddr) with e0 | edited
      · simp [create_and_log, hr, loggedRecords]
      · simp only [create_and_log, hr] at hres ⊢
        simpa [loggedRecords] using (forwardAndLog_count underlying kwargs now _
          edited [Event.hookInvoked (heap.get msgsAddr)]).2 e hres
  · intro hook e hsome hret
    subst hsome
    simp [create_and_log, hret]
  · intro m e hEdit hCall
    cases edit_call with
    | none =>
      simp only [editedMessages, Except.ok.injEq] at hEdit
      subst hEdit
      simp [create_and_log, forwardAndLog, hCall]
    | some hook =>
      simp only [editedMessages] at hEdit
      simp [create_and_log, forwardAndLog, hEdit, hCall]

/-- Witness for C2 amended at concrete inputs: a successful call emits
exactly one record. -/
theorem create_and_log_record_count_witness :
    (loggedRecords (create_and_log heapSample 0 none kwargsSample okUnderlying 5).events).length
      = 1 :=
  (create_and_log_record_count heapSample 0 none kwargsSample okUnderlying 5).1
    respSample rfl

/-- C4: with a bound editing hook, the hook is invoked on a deep independent
copy carrying the value of the caller message list, and the caller object is
unchanged after the wrapped call returns, whatever the hook does in place to
its argument. -/
theorem create_and_log_nonmutation
    (heap : Heap) (msgsAddr : Nat) (hook : Hook) (kwargs : Kwargs)
    (underlying : UnderlyingFn) (now : Int)
    (hAddr : msgsAddr < heap.cells.length) :
    (create_and_log heap msgsAddr (some hook) kwargs underlying now).heap.get msgsAddr
        = heap.get msgsAddr
      ∧ Event.hookInvoked (heap.get msgsAddr)
          ∈ (create_and_log heap msgsAddr (some hook) kwargs underlying now).events := by
  have hne : (deepcopy heap msgsAddr).2 ≠ msgsAddr := Nat.ne_of_gt hAddr
  have hget : ((deepcopy heap msgsAddr).1.set (deepcopy heap msgsAddr).2
      (hook.mutate (heap.get msgsAddr))).get msgsAddr = heap.get msgsAddr := by
    rw [Heap.get_set_ne _ _ _ _ hne]
    exact Heap.get_alloc_old heap _ msgsAddr hAddr
  rcases hr : hook.ret (heap.get msgsAddr) with e | edited
  · constructor
    · simpa [create_and_log, hr] using hget
    · simp [create_and_log, hr]
  · constructor
    · simp only [create_and_log, hr]
      rw [forwardAndLog_heap]
      exact hget
    · simp only [create_and_log, hr]
      exact forwardAndLog_mem_events _ _ _ _ _ _ _ (by simp)

/-- Witness for C4 at concrete inputs: a hook that destroys its argument in
place; the caller object still holds msgUser afterwards. -/
theorem create_and_log_nonmutation_witness :
    (create_and_log heapSample 0 (some hookSample) kwargsSample okUnderlying 5).heap.get 0
        = heapSample.get 0
      ∧ Event.hookInvoked (heapSample.get 0)
          ∈ (create_and_log heapSample 0 (some hookSample) kwargsSample okUnderlying 5).events :=
  create_and_log_nonmutation heapSample 0 hookSample kwargsSample okUnderlying 5
    (by decide)

/-- C5: installing twice with different hooks equals installing only the
second one: the slot holds the wrapper built from the second hook and the
import-time original call, with no layering of wrappers. -/
theorem patch_openai_last_writer_wins
    (original : UnderlyingFn) (hook1 hook2 : Option Hook) (st : OpenAIState) :
    patch_openai original hook2 (patch_openai original hook1 st)
        = patch_openai original hook2 st
      ∧ (patch_openai original hook2 st).chatCompletionCreate
        = fun heap msgsAddr kwargs now =>
            create_and_log heap msgsAddr hook2 kwargs original now :=
  ⟨rfl, rfl⟩

/-- Counterexample to C6 as stated: after a first successful open_log
attached handler 0 and a second successful open_log replaced it, handler 0
has been removed but not closed: removeHandler never calls close, so the
previously attached destination keeps its file handle open. -/
theorem new_log_file_old_handler_not_closed :
    (new_log_file allWritable "t" (some "logs/a.log") loggingInit).1.tricotHandlers = [0]
  ∧ (new_log_file allWritable "t" (some "logs/b.log")
      (new_log_file allWritable "t" (some "logs/a.log") loggingInit).1).2 = none
  ∧ (new_log_file allWritable "t" (some "logs/b.log")
      (new_log_file allWritable "t" (some "logs/a.log") loggingInit).1).1.tricotHandlers = [1]
  ∧ ((new_log_file allWritable "t" (some "logs/b.log")
      (new_log_file allWritable "t" (some "logs/a.log") loggingInit).1).1.store.getD 0
        noHandler).closed = false :=
  ⟨rfl, rfl, rfl, rfl⟩

/-- C6 amended: after every successful open_log call on a state whose
attached handler indices are valid, exactly one destination is attached to
the channel: the freshly opened one, at the requested path and open; the
previously attached destinations are all removed (though not closed), so a
record emitted afterwards is written to the new destination and to none of
the previous ones. -/
theorem new_log_file_single_destination
    (writable : String → Bool) (tnow : String) (path : Option String)
    (st st2 : LoggingState)
    (hWF : ∀ i ∈ st.tricotHandlers, i < st.store.length)
    (hOk : new_log_file writable tnow path st = (st2, none)) :
    st2.tricotHandlers = [st.store.length]
  ∧ (st2.store.getD st.store.length noHandler).path = resolvedPath tnow path
  ∧ (st2.store.getD st.store.length noHandler).closed = false
  ∧ (∀ line i, i ∈ st.tricotHandlers →
      ((loggerInfo st2 line).store.getD i noHandler).written
        = (st2.store.getD i noHandler).written)
  ∧ (∀ line, ((loggerInfo st2 line).store.getD st.store.length noHandler).written
      = (st2.store.getD st.store.length noHandler).written ++ [line]) := by
  obtain ⟨p, hp⟩ : ∃ p, resolvedPath tnow path = p := ⟨_, rfl⟩
  simp only [new_log_file, drainHandlers_eq, fileHandler] at hOk
  rw [hp] at hOk
  rw [hp]
  cases hanc : st.tricotPropagate && !st.rootHandlers.isEmpty with
  | true =>
    rw [hanc] at hOk
    simp at hOk
  | false =>
    rw [hanc] at hOk
    cases hw : writable p with
    | false =>
      rw [hw] at hOk
      simp at hOk
    | true =>
      rw [hw] at hOk
      simp only [reduceIte, List.nil_append] at hOk
      injection hOk with h1 h2
      subst h1
      refine ⟨rfl, ?_, ?_, ?_, ?_⟩
      · simp [getD_append_length]
      · simp [getD_append_length]
      · intro line i hi
        have hlt := hWF i hi
        have hne : st.store.length ≠ i := Nat.ne_of_gt hlt
        cases hpr : st.tricotPropagate with
        | false =>
          simp [loggerInfo, effectiveLevel, INFO, writeTo,
            List.getElem?_append_left hlt]
        | true =>
          have hroot : st.rootHandlers = [] := by
            rcases hr : st.rootHandlers with _ | ⟨a, t⟩
            · rfl
            · rw [hpr, hr] at hanc
              simp at hanc
          simp [loggerInfo, effectiveLevel, INFO, writeTo, hroot,
            List.getElem?_append_left hlt]
      · intro line
        cases hpr : st.tricotPropagate with
        | false =>
          simp [loggerInfo, effectiveLevel, INFO, writeTo, appendLine,
            List.getElem?_concat_length]
        | true =>
          have hroot : st.rootHandlers = [] := by
            rcases hr : st.rootHandlers with _ | ⟨a, t⟩
            · rfl
            · rw [hpr, hr] at hanc
              simp at hanc
          simp [loggerInfo, effectiveLevel, INFO, writeTo, hroot, appendLine,
            List.getElem?_concat_length]

/-- Witness for C6 amended at concrete inputs. -/
theorem new_log_file_single_destination_witness :
    loggingAfterOpenA.tricotHandlers = [loggingInit.store.length]
  ∧ (loggingAfterOpenA.store.getD loggingInit.store.length noHandler).path
      = resolvedPath "t" (some "logs/a.log")
  ∧ (loggingAfterOpenA.store.getD loggingInit.store.length noHandler).closed = false
  ∧ (∀ line i, i ∈ loggingInit.tricotHandlers →
      ((loggerInfo loggingAfterOpenA line).store.getD i noHandler).written
        = (loggingAfterOpenA.store.getD i noHandler).written)
  ∧ (∀ line,
      ((loggerInfo loggingAfterOpenA line).store.getD loggingInit.store.length
          noHandler).written
        = (loggingAfterOpenA.store.getD loggingInit.store.length noHandler).written
            ++ [line]) :=
  new_log_file_single_destination allWritable "t" (some "logs/a.log") loggingInit
    loggingAfterOpenA (by simp [loggingInit]) rfl

/-- C7: when the handler-removal loop completes but opening the new
destination fails, the exception propagates to the caller of open_log, no
new destination is attached (the handler store is untouched), and the
channel is left with zero destinations, the previous ones having already
been removed. -/
theorem new_log_file_open_failure
    (writable : String → Bool) (tnow : String) (path : Option String)
    (st : LoggingState)
    (hNoAnc : (st.tricotPropagate && !st.rootHandlers.isEmpty) = false)
    (hBad : writable (resolvedPath tnow path) = false) :
    new_log_file writable tnow path st
      = ({ st with tricotLevel := INFO, tricotHandlers := [] }, some PyErr.osError) := by
  simp only [new_log_file, drainHandlers_eq, hNoAnc, fileHandler, hBad]
  simp

/-- Witness for C7 at concrete inputs: an unwritable path. -/
theorem new_log_file_open_failure_witness :
    new_log_file nothingWritable "t" (some "logs/x.log") loggingInit
      = ({ loggingInit with tricotLevel := INFO, tricotHandlers := [] },
          some PyErr.osError) :=
  new_log_file_open_failure nothingWritable "t" (some "logs/x.log") loggingInit
    rfl rfl

/-- C10: when the TRICOT logger has no handler of its own but the root
logger has one (and propagation is on, the default), the handler-removal
loop of new_log_file raises IndexError: hasHandlers sees the ancestor
handler while logger.handlers is empty, so logger.handlers[0] fails; the
exception propagates before any new destination is attached and the stored
handlers are untouched. -/
theorem new_log_file_ancestor_index_error
    (writable : String → Bool) (tnow : String) (path : Option String)
    (st : LoggingState)
    (hOwn : st.tricotHandlers = [])
    (hProp : st.tricotPropagate = true)
    (hRoot : st.rootHandlers ≠ []) :
    new_log_file writable tnow path st
      = ({ st with tricotLevel := INFO }, some PyErr.indexError) := by
  have hne : st.rootHandlers.isEmpty = false := by
    rcases hr : st.rootHandlers with _ | ⟨a, t⟩
    · exact absurd hr hRoot
    · rfl
  simp only [new_log_file, drainHandlers_eq, hOwn, hProp, hne]
  simp

/-- Witness for C10 at concrete inputs: a fresh TRICOT logger under a root
logger that already has a handler. -/
theorem new_log_file_ancestor_index_error_witness :
    new_log_file allWritable "t" (some "logs/x.log") loggingWithRootHandler
      = ({ loggingWithRootHandler with tricotLevel := INFO },
          some PyErr.indexError) :=
  new_log_file_ancestor_index_error allWritable "t" (some "logs/x.log")
    loggingWithRootHandler rfl rfl (by decide)

end Tricot
